import Mathlib

/-!
Verification of the book-exchange platform backend (TypeScript/Express/Mongoose)
against its natural-language specification.

The relevant controllers are shallowly embedded as pure Lean functions over an
explicit database state:
  * `createExchangeRequest`, `updateExchangeStatus`
      (src/backend/src/controllers/transactionController.ts)
  * `login`, `forgotPassword`, `resetPassword`,
    `verifySecurityAnswers`, `resetPasswordWithSecurityAnswers`
      (src/backend/src/controllers/authController.ts)
  * `getBooks` (src/backend/src/controllers/bookController.ts)

Mongo documents become Lean structures; `ObjectId`s become `Nat`s; dates become
epoch-millisecond `Nat`s; `Model.findById` / `findOne` become `List.find?`;
`document.save()` becomes replace-by-id (or append for a new document).
bcrypt and the random generator are external libraries: they enter as explicit
function parameters (`hash`, `hcmp`, `rand`), never as fixed stubs.
JS falsiness of an absent/empty string is modelled by `""` (both `undefined`
and `""` are falsy in the source's `message ? _ : _` and `a || b` tests).
-/

namespace BookExchange

/-- Transaction status enum of `models/Transaction.ts`. -/
inductive TransactionStatus where
  | pending
  | accepted
  | rejected
  | modified
  | completed
  | cancelled
deriving DecidableEq, Repr

/-- Book status enum of `models/Book.ts`. -/
inductive BookStatus where
  | available
  | pending
  | exchanged
deriving DecidableEq, Repr

/-- Delivery method enum of the embedded `terms` schema. -/
inductive DeliveryMethod where
  | inPerson
  | courier
  | mail
deriving DecidableEq, Repr

/-- Embedded message subdocument of a transaction. -/
structure Message where
  sender : Nat
  content : String
  createdAt : Nat
  read : Bool
  notified : Bool
deriving DecidableEq, Repr

/-- Embedded `terms` subdocument of a transaction. -/
structure Terms where
  deliveryMethod : DeliveryMethod
  duration : Nat
  location : Option String
  additionalNotes : Option String
deriving DecidableEq, Repr

/-- A book document (`models/Book.ts`). -/
structure Book where
  id : Nat
  title : String
  author : String
  genre : String
  description : Option String
  condition : String
  location : String
  owner : Nat
  status : BookStatus
  createdAt : Nat
deriving DecidableEq, Repr

/-- A user document (`models/User.ts`). -/
structure User where
  id : Nat
  email : String
  password : String
  name : String
  bio : Option String
  location : Option String
  profileImage : Option String
  preferencesGenres : List String
  securityAnswers : List String
  reputation : Int
  resetPasswordToken : Option String
  resetPasswordExpires : Option Nat
deriving DecidableEq, Repr

/-- A transaction document (`models/Transaction.ts`). -/
structure Transaction where
  id : Nat
  book : Nat
  requester : Nat
  owner : Nat
  status : TransactionStatus
  terms : Terms
  messages : List Message
  lastModifiedBy : Nat
deriving DecidableEq, Repr

/-- The three Mongo collections. -/
structure DB where
  users : List User
  books : List Book
  transactions : List Transaction
deriving DecidableEq, Repr

/-- `Book.findById`. -/
def findBook (db : DB) (id : Nat) : Option Book :=
  db.books.find? (fun b => b.id = id)

/-- `Transaction.findById`. -/
def findTransaction (db : DB) (id : Nat) : Option Transaction :=
  db.transactions.find? (fun t => t.id = id)

/-- `User.findById`. -/
def findUser (db : DB) (id : Nat) : Option User :=
  db.users.find? (fun u => u.id = id)

/-- `User.findOne({email})`. -/
def findUserByEmail (db : DB) (email : String) : Option User :=
  db.users.find? (fun u => u.email = email)

/-- `book.save()`: replace the document with this id (append if new). -/
def saveBook (db : DB) (b : Book) : DB :=
  if db.books.any (fun x => x.id = b.id) then
    { db with books := db.books.map (fun x => if x.id = b.id then b else x) }
  else
    { db with books := db.books ++ [b] }

/-- `transaction.save()`: replace the document with this id (append if new). -/
def saveTransaction (db : DB) (t : Transaction) : DB :=
  if db.transactions.any (fun x => x.id = t.id) then
    { db with transactions := db.transactions.map (fun x => if x.id = t.id then t else x) }
  else
    { db with transactions := db.transactions ++ [t] }

/-- `user.save()`: replace the document with this id (append if new). -/
def saveUser (db : DB) (u : User) : DB :=
  if db.users.any (fun x => x.id = u.id) then
    { db with users := db.users.map (fun x => if x.id = u.id then u else x) }
  else
    { db with users := db.users ++ [u] }

/-- Outcome of a controller call: an HTTP status code with either a value
(success JSON) or an `{error: string}` body. -/
inductive ApiResult (α : Type) where
  | ok (code : Nat) (val : α)
  | err (code : Nat) (error : String)
deriving DecidableEq, Repr

/-- JS `a || b` on strings (`""` and `undefined` are both falsy, modelled
as `""`). -/
def jsOr (a b : String) : String :=
  if a = "" then b else a

/-- The string→enum parse that Mongoose's enum validator performs at
`transaction.save()`; a string outside the enum makes `save` throw. -/
def parseStatus (s : String) : Option TransactionStatus :=
  if s = "pending" then some .pending
  else if s = "accepted" then some .accepted
  else if s = "rejected" then some .rejected
  else if s = "modified" then some .modified
  else if s = "completed" then some .completed
  else if s = "cancelled" then some .cancelled
  else none

/-- The Mongoose schema validation that `transaction.save()` performs on
the embedded `terms` subdocument (`models/Transaction.ts`): `duration` is
required with `min: 1, max: 90`. The `deliveryMethod` enum and the
required references are valid by construction in this model. -/
def termsValid (t : Terms) : Bool :=
  decide (1 ≤ t.duration) && decide (t.duration ≤ 90)

/-- `createExchangeRequest` (transactionController.ts lines 8–70).
`tid` models the fresh ObjectId Mongo mints for the new transaction;
`message = ""` models an absent opening message (JS falsy);
`now` models `new Date()`. The first write is `transaction.save()`, which
throws a ValidationError when the terms violate the schema bounds; the
handler's catch turns that into a 500 with nothing yet written (the book
write only happens after the transaction save). -/
def createExchangeRequest (db : DB) (userId : Nat) (bookId : Nat) (terms : Terms)
    (message : String) (tid : Nat) (now : Nat) : ApiResult Transaction × DB :=
  match findBook db bookId with
  | none => (.err 404 "Book not found", db)
  | some book =>
    if book.status ≠ .available then
      (.err 400 "Book is not available for exchange", db)
    else if book.owner = userId then
      (.err 400 "Cannot request your own book", db)
    else
      let transaction : Transaction :=
        { id := tid
          book := bookId
          requester := userId
          owner := book.owner
          status := .pending
          terms := terms
          messages :=
            if message ≠ "" then
              [{ sender := userId, content := message, createdAt := now,
                 read := false, notified := false }]
            else []
          lastModifiedBy := userId }
      if termsValid terms then
        let db1 := saveTransaction db transaction
        let db2 := saveBook db1 { book with status := .pending }
        (.ok 201 transaction, db2)
      else
        (.err 500 "Failed to create exchange request", db)

/-- The fixed per-status texts of `updateExchangeStatus`
(`statusMessages[...] || ''`). -/
def statusMessageFor (status : String) : String :=
  if status = "accepted" then "Request accepted"
  else if status = "rejected" then "Request rejected"
  else if status = "cancelled" then "Request withdrawn"
  else ""

/-- `updateExchangeStatus` (transactionController.ts lines 73–174).
`exchangeId = none` models a malformed id (`Types.ObjectId.isValid` false);
`status` is the raw request-body string; `message = ""` models an absent
message. When `status` is outside the schema enum, `transaction.save()`
throws a validation error caught by the handler (500) — but the book write,
which the source performs before `transaction.save()`, has already happened
(with the book's status left as it was, since none of the three status
comparisons match). -/
def updateExchangeStatus (db : DB) (userId : Nat) (exchangeId : Option Nat)
    (status : String) (message : String) (now : Nat) : ApiResult Transaction × DB :=
  match exchangeId with
  | none => (.err 400 "Invalid exchange ID", db)
  | some eid =>
    match findTransaction db eid with
    | none => (.err 404 "Exchange request not found", db)
    | some transaction =>
      let isOwner := transaction.owner = userId
      let isRequester := transaction.requester = userId
      if ¬isOwner ∧ ¬isRequester then
        (.err 403 "Not authorized to update this exchange", db)
      else if (status = "accepted" ∨ status = "rejected") ∧ ¬isOwner then
        (.err 403 "Only the owner can accept or reject requests", db)
      else if status = "cancelled" ∧ ¬isRequester then
        (.err 403 "Only the requester can cancel requests", db)
      else
        let statusMessage := statusMessageFor status
        let newMessages :=
          if statusMessage ≠ "" ∨ message ≠ "" then
            transaction.messages ++
              [{ sender := userId, content := jsOr message statusMessage,
                 createdAt := now, read := false, notified := false }]
          else transaction.messages
        let dbAfterBook :=
          match findBook db transaction.book with
          | some book =>
            saveBook db
              { book with
                status :=
                  if status = "accepted" then .pending
                  else if status = "rejected" ∨ status = "cancelled" then .available
                  else book.status }
          | none => db
        match parseStatus status with
        | none => (.err 500 "Failed to update exchange status", dbAfterBook)
        | some newStatus =>
          let transaction' :=
            { transaction with
              status := newStatus
              lastModifiedBy := userId
              messages := newMessages }
          (.ok 200 transaction', saveTransaction dbAfterBook transaction')

/-- `login` (authController.ts lines 85–133). `hcmp plain hash` embeds
`bcrypt.compare`. On success the source issues a JWT; the success value here
is the authenticated user's id. `login` performs no database write. -/
def login (db : DB) (hcmp : String → String → Bool)
    (email password : String) : ApiResult Nat :=
  match findUserByEmail db email with
  | none => .err 400 "Invalid credentials"
  | some user =>
    if ¬hcmp password user.password then
      .err 400 "Invalid credentials"
    else
      .ok 200 user.id

/-- The OTP produced by `Math.floor(100000 + Math.random() * 900000)`:
`rand` stands for `Math.random()`'s output scaled to an integer in
`[0, 900000)`; the `% 900000` makes the model total on all of `Nat`. -/
def generateOtp (rand : Nat) : Nat :=
  100000 + rand % 900000

/-- `forgotPassword` (authController.ts lines 135–165). `emailOk` is the
outcome of the external `sendEmail` call; when it is `false` the handler
clears the just-stored OTP fields and saves again before reporting a 500. -/
def forgotPassword (db : DB) (email : String) (rand : Nat) (now : Nat)
    (emailOk : Bool) : ApiResult Unit × DB :=
  match findUserByEmail db email with
  | none => (.err 404 "User not found", db)
  | some user =>
    let otp := generateOtp rand
    let otpExpiry := now + 3600000
    let user1 := { user with
      resetPasswordToken := some (toString otp)
      resetPasswordExpires := some otpExpiry }
    let db1 := saveUser db user1
    if emailOk then
      (.ok 200 (), db1)
    else
      let user2 := { user1 with
        resetPasswordToken := none
        resetPasswordExpires := none }
      (.err 500 "Failed to send OTP email", saveUser db1 user2)

/-- `resetPassword` (authController.ts lines 167–192). The Mongo query
`{email, resetPasswordToken: otp, resetPasswordExpires: {$gt: Date.now()}}`
becomes a `find?` over its conjunction; `hash` embeds `bcrypt.hash` with the
freshly generated salt. -/
def resetPassword (db : DB) (hash : String → String)
    (email otp newPassword : String) (now : Nat) : ApiResult Unit × DB :=
  match db.users.find? (fun u =>
      u.email = email && u.resetPasswordToken = some otp &&
      match u.resetPasswordExpires with
      | some e => decide (now < e)
      | none => false) with
  | none => (.err 400 "Invalid or expired OTP", db)
  | some user =>
    let user1 := { user with
      password := hash newPassword
      resetPasswordToken := none
      resetPasswordExpires := none }
    (.ok 200 (), saveUser db user1)

/-- JS `String.prototype.toLowerCase()` modelled character-wise. -/
def jsToLower (s : String) : String :=
  ⟨s.data.map Char.toLower⟩

/-- JS `String.prototype.trim()`: strip leading and trailing whitespace. -/
def jsTrim (s : String) : String :=
  ⟨((s.data.dropWhile Char.isWhitespace).reverse.dropWhile
      Char.isWhitespace).reverse⟩

/-- Index-carrying worker for `answersMatch` (the source's
`answers.map((answer, index) => ...)`). -/
def answersMatchFrom (hcmp : String → String → Bool) (stored : List String) :
    Nat → List String → List Bool
  | _, [] => []
  | index, answer :: rest =>
    (match stored.get? index with
     | none => false
     | some h => hcmp (jsTrim (jsToLower answer)) h) ::
      answersMatchFrom hcmp stored (index + 1) rest

/-- The per-index comparison of `verifySecurityAnswers` /
`resetPasswordWithSecurityAnswers`: each submitted answer is lower-cased,
trimmed, and bcrypt-compared against the stored hash at the same index
(missing stored hash ⇒ `false`). -/
def answersMatch (hcmp : String → String → Bool) (stored : List String)
    (answers : List String) : List Bool :=
  answersMatchFrom hcmp stored 0 answers

/-- The single-position comparison the security-answer check performs at
index `i`: lower-case, trim, bcrypt-compare against the stored hash at the
same position (`false` when no hash is stored there). -/
def answerMatches (hcmp : String → String → Bool) (u : User) (i : Nat)
    (a : String) : Bool :=
  match u.securityAnswers.get? i with
  | none => false
  | some h => hcmp (jsTrim (jsToLower a)) h

/-- `verifySecurityAnswers` (authController.ts lines 194–234).
`email = ""` models a missing email field (JS falsy). The handler performs
no database write. -/
def verifySecurityAnswers (db : DB) (hcmp : String → String → Bool)
    (email : String) (answers : List String) : ApiResult Unit :=
  if email = "" ∨ answers.length ≠ 3 then
    .err 400 "Email and three security answers are required"
  else
    match findUserByEmail db email with
    | none => .err 400 "Invalid email or security answers"
    | some user =>
      if ¬(answersMatch hcmp user.securityAnswers answers).all (fun m => m) then
        .err 400 "Invalid security answers"
      else
        .ok 200 ()

/-- `resetPasswordWithSecurityAnswers` (authController.ts lines 236–282).
Identical guard chain to `verifySecurityAnswers` (plus the `newPassword`
presence check), then stores the re-hashed password. It touches only
`user.password`: the reset-OTP fields are not cleared. -/
def resetPasswordWithSecurityAnswers (db : DB) (hcmp : String → String → Bool)
    (hash : String → String) (email : String) (answers : List String)
    (newPassword : String) : ApiResult Unit × DB :=
  if email = "" ∨ newPassword = "" ∨ answers.length ≠ 3 then
    (.err 400 "Email, security answers, and new password are required", db)
  else
    match findUserByEmail db email with
    | none => (.err 400 "Invalid email or security answers", db)
    | some user =>
      if ¬(answersMatch hcmp user.securityAnswers answers).all (fun m => m) then
        (.err 400 "Invalid security answers", db)
      else
        let user1 := { user with password := hash newPassword }
        (.ok 200 (), saveUser db user1)

/-- `charsLead needle hay`: `needle` is an initial run of `hay`. -/
def charsLead : List Char → List Char → Bool
  | [], _ => true
  | _ :: _, [] => false
  | a :: as, b :: bs => a = b && charsLead as bs

/-- `charsContain needle hay`: `needle` occurs contiguously in `hay`. -/
def charsContain (needle : List Char) : List Char → Bool
  | [] => charsLead needle []
  | c :: t => charsLead needle (c :: t) || charsContain needle t

/-- `new RegExp(pattern, 'i').test(text)` for a literal pattern:
case-insensitive substring search. -/
def regexTestCI (pattern text : String) : Bool :=
  charsContain pattern.toLower.data text.toLower.data

/-- The query parameters of `getBooks`; `""` models an absent parameter
(JS falsy), `"All"` disables the genre/condition/location filters. -/
structure BooksQuery where
  page : Nat
  search : String
  genre : String
  condition : String
  location : String
  sortBy : String
deriving DecidableEq, Repr

/-- The Mongo query `getBooks` builds: `status: 'available'` plus the
optional search/genre/condition/location filters. -/
def matchesBookQuery (q : BooksQuery) (b : Book) : Bool :=
  b.status = BookStatus.available &&
  (q.search = "" || regexTestCI q.search b.title || regexTestCI q.search b.author) &&
  (q.genre = "" || q.genre = "All" || b.genre = q.genre) &&
  (q.condition = "" || q.condition = "All" || b.condition = q.condition) &&
  (q.location = "" || q.location = "All" || b.location = q.location)

/-- `ITEMS_PER_PAGE` (bookController.ts line 7). -/
def ITEMS_PER_PAGE : Nat := 15

/-- The page `getBooks` fetches before sorting: `.skip((page-1)*15).limit(15)`
over the filtered collection (the source paginates first and sorts the
fetched page in memory). -/
def pageOf (db : DB) (q : BooksQuery) : List Book :=
  ((db.books.filter (matchesBookQuery q)).drop ((q.page - 1) * ITEMS_PER_PAGE)).take
    ITEMS_PER_PAGE

/-- Stable insertion of `x` into an already-sorted list under a JS
comparator: `x` goes before the first element it does not compare
strictly after. -/
def orderedInsertCmp {α : Type} (cmp : α → α → Int) (x : α) : List α → List α
  | [] => [x]
  | b :: bs => if cmp x b ≤ 0 then x :: b :: bs else b :: orderedInsertCmp cmp x bs

/-- `Array.prototype.sort(cmp)` for a consistent comparator: the unique
stable sort, realised as insertion sort (later elements inserted first, so
equal-comparing elements keep their original relative order). -/
def jsSort {α : Type} (cmp : α → α → Int) : List α → List α
  | [] => []
  | x :: xs => orderedInsertCmp cmp x (jsSort cmp xs)

/-- `String.prototype.localeCompare` modelled on Lean's lexicographic
string order: negative / zero / positive as the receiver sorts
before / equal-to / after the argument. -/
def localeCmp (s t : String) : Int :=
  if s < t then -1 else if t < s then 1 else 0

/-- `userGenres.includes(b.genre) ? 1 : 0` (the re-ranking score of the
`recommended` sort mode). -/
def genreScore (userGenres : List String) (b : Book) : Int :=
  if b.genre ∈ userGenres then 1 else 0

/-- The comparator passed to `sort` in `getBooks` (bookController.ts
lines 112–131). -/
def bookCmp (sortBy : String) (userGenres : List String) (a b : Book) : Int :=
  if sortBy = "recommended" ∧ 0 < userGenres.length then
    genreScore userGenres b - genreScore userGenres a
  else if sortBy = "newest" then (b.createdAt : Int) - (a.createdAt : Int)
  else if sortBy = "oldest" then (a.createdAt : Int) - (b.createdAt : Int)
  else if sortBy = "title_asc" then localeCmp a.title b.title
  else if sortBy = "title_desc" then localeCmp b.title a.title
  else 0

/-- The `{books, pagination}` payload of `getBooks`. -/
structure BooksPage where
  books : List Book
  currentPage : Nat
  totalPages : Nat
  totalItems : Nat
  itemsPerPage : Nat
deriving DecidableEq, Repr

/-- `currentUser?.preferences?.genres || []`: the caller's preferred
genres, empty for an unauthenticated or unknown caller. -/
def callerGenres (db : DB) (userId : Option Nat) : List String :=
  ((userId.bind (findUser db)).map (fun u => u.preferencesGenres)).getD []

/-- `getBooks` (bookController.ts lines 65–171). `userId = none` models an
unauthenticated caller of this public route (no preferred genres). The
handler only reads, so no database state is returned. -/
def getBooks (db : DB) (userId : Option Nat) (q : BooksQuery) : BooksPage :=
  let userGenres := callerGenres db userId
  let totalBooks := (db.books.filter (matchesBookQuery q)).length
  let sortedBooks := jsSort (bookCmp q.sortBy userGenres) (pageOf db q)
  { books := sortedBooks
    currentPage := q.page
    totalPages := (totalBooks + ITEMS_PER_PAGE - 1) / ITEMS_PER_PAGE
    totalItems := totalBooks
    itemsPerPage := ITEMS_PER_PAGE }

/-- The transaction record `updateExchangeStatus` saves on its success
path (status and `lastModifiedBy` overwritten, message appended iff either
a fixed status text or a caller message is present). -/
def updatedTxn (t : Transaction) (uid : Nat) (s : TransactionStatus)
    (st msg : String) (now : Nat) : Transaction :=
  { t with
    status := s
    lastModifiedBy := uid
    messages :=
      if statusMessageFor st ≠ "" ∨ msg ≠ "" then
        t.messages ++
          [{ sender := uid, content := jsOr msg (statusMessageFor st),
             createdAt := now, read := false, notified := false }]
      else t.messages }

/-- The book write `updateExchangeStatus` performs (silently skipped when
the referenced book no longer exists). -/
def bookSideEffect (db : DB) (t : Transaction) (st : String) : DB :=
  match findBook db t.book with
  | some book =>
    saveBook db
      { book with
        status :=
          if st = "accepted" then .pending
          else if st = "rejected" ∨ st = "cancelled" then .available
          else book.status }
  | none => db

/-- The transaction document `createExchangeRequest` builds on its success
path: status defaults to `pending`, the message log is seeded with the
caller's opening message exactly when one is supplied. -/
def newRequestTxn (uid bookId : Nat) (terms : Terms) (msg : String)
    (tid now ownerId : Nat) : Transaction :=
  { id := tid
    book := bookId
    requester := uid
    owner := ownerId
    status := .pending
    terms := terms
    messages :=
      if msg ≠ "" then
        [{ sender := uid, content := msg, createdAt := now,
           read := false, notified := false }]
      else []
    lastModifiedBy := uid }

/-- Success payload of an `ApiResult`, if any. -/
def okData {α : Type} : ApiResult α → Option α
  | .ok _ v => some v
  | .err _ _ => none

/-! ### Concrete fixtures used by witnesses and counterexamples -/

/-- A concrete bcrypt stand-in pair for witnesses: `exHash` "hashes",
`exCmp` recognises exactly the strings `exHash` produced. -/
def exHash : String → String := fun s => "H" ++ s

/-- See `exHash`. -/
def exCmp : String → String → Bool := fun p h => h = "H" ++ p

/-- Concrete exchange terms. -/
def exTerms : Terms :=
  { deliveryMethod := .mail, duration := 5, location := none,
    additionalNotes := none }

/-- A book (id 1) owned by user 1, currently `pending`. -/
def exBookPending : Book :=
  { id := 1, title := "Dune", author := "Herbert", genre := "SF",
    description := none, condition := "Good", location := "Delhi",
    owner := 1, status := .pending, createdAt := 0 }

/-- A pending transaction (id 1): user 2 requested book 1 from user 1. -/
def exTxnPending : Transaction :=
  { id := 1, book := 1, requester := 2, owner := 1,
    status := .pending, terms := exTerms, messages := [],
    lastModifiedBy := 2 }

/-- Database with one pending transaction over one pending book. -/
def exDbPending : DB :=
  { users := [], books := [exBookPending], transactions := [exTxnPending] }

/-- Database whose only transaction is in the (per the spec terminal)
status `completed`. -/
def exDbCompleted : DB :=
  { users := [],
    books := [exBookPending],
    transactions := [{ exTxnPending with status := .completed }] }

/-- Database with one available book (id 1, owner 1) and no transactions. -/
def exDbAvail : DB :=
  { users := [],
    books := [{ exBookPending with status := .available }],
    transactions := [] }

/-- A registered user: email `a@x`, password hash of `pw`, security-answer
hashes of `ans1`/`ans2`/`ans3`, and a live reset code `111111` expiring
at time 10. -/
def exUser : User :=
  { id := 7, email := "a@x", password := exHash "pw", name := "A",
    bio := none, location := none, profileImage := none,
    preferencesGenres := ["SF"],
    securityAnswers := [exHash "ans1", exHash "ans2", exHash "ans3"],
    reputation := 0,
    resetPasswordToken := some "111111",
    resetPasswordExpires := some 10 }

/-- Database with just `exUser`. -/
def exDbUser : DB := { users := [exUser], books := [], transactions := [] }

/-- The same user with no stored reset code. -/
def exUserNoOtp : User :=
  { exUser with resetPasswordToken := none, resetPasswordExpires := none }

/-- Database with just `exUserNoOtp`. -/
def exDbUserNoOtp : DB :=
  { users := [exUserNoOtp], books := [], transactions := [] }

/-- Catalog fixture: three available books (two in the caller's preferred
genre `SF`, interleaved with one that is not) plus one pending book, and a
caller (id 7, prefers `SF`). -/
def exCatalogDb : DB :=
  { users := [exUser]
    books :=
      [{ id := 1, title := "B1", author := "X", genre := "Mystery",
         description := none, condition := "Good", location := "Delhi",
         owner := 1, status := .available, createdAt := 3 },
       { id := 2, title := "A2", author := "Y", genre := "SF",
         description := none, condition := "Good", location := "Delhi",
         owner := 1, status := .available, createdAt := 1 },
       { id := 3, title := "C3", author := "Z", genre := "SF",
         description := none, condition := "Good", location := "Delhi",
         owner := 1, status := .pending, createdAt := 2 },
       { id := 4, title := "D4", author := "W", genre := "SF",
         description := none, condition := "Good", location := "Delhi",
         owner := 1, status := .available, createdAt := 2 }]
    transactions := [] }

/-- An all-defaults catalog query. -/
def exQuery : BooksQuery :=
  { page := 1, search := "", genre := "", condition := "", location := "",
    sortBy := "" }

/-! ### Helper lemmas about `find?` and the replace-by-id `save` model -/

theorem transactions_saveBook (db : DB) (b : Book) :
    (saveBook db b).transactions = db.transactions := by
  unfold saveBook; split <;> rfl

theorem books_saveTransaction (db : DB) (t : Transaction) :
    (saveTransaction db t).books = db.books := by
  unfold saveTransaction; split <;> rfl

theorem users_saveBook (db : DB) (b : Book) :
    (saveBook db b).users = db.users := by
  unfold saveBook; split <;> rfl

theorem users_saveTransaction (db : DB) (t : Transaction) :
    (saveTransaction db t).users = db.users := by
  unfold saveTransaction; split <;> rfl

theorem findTransaction_saveBook (db : DB) (b : Book) (i : Nat) :
    findTransaction (saveBook db b) i = findTransaction db i := by
  simp [findTransaction, transactions_saveBook]

theorem findBook_saveTransaction (db : DB) (t : Transaction) (i : Nat) :
    findBook (saveTransaction db t) i = findBook db i := by
  simp [findBook, books_saveTransaction]

/-- Replacing (by id) the first hit of an id-search leaves the replacement
findable at that id, without any uniqueness assumption: all replaced
elements carry the searched id, so no earlier non-hit can turn into a hit. -/
theorem find?_map_replace_id {α : Type} (idf : α → Nat) (i : Nat) (u u' : α) :
    ∀ l : List α, l.find? (fun x => idf x = i) = some u → idf u' = i →
      (l.map (fun x => if idf x = idf u' then u' else x)).find?
        (fun x => idf x = i) = some u'
  | [], hfind, _ => by simp at hfind
  | a :: l, hfind, hid => by
    by_cases hpa : idf a = i
    · have ha : a = u := by
        rw [List.find?_cons_of_pos _ (by simpa using hpa)] at hfind
        exact Option.some.inj hfind
      have hcond : idf a = idf u' := by rw [hpa, hid]
      simp only [List.map_cons, if_pos hcond]
      exact List.find?_cons_of_pos _ (by simpa using hid)
    · have hcond : ¬ idf a = idf u' := by rw [hid]; exact hpa
      rw [List.find?_cons_of_neg _ (by simpa using hpa)] at hfind
      simp only [List.map_cons, if_neg hcond]
      rw [List.find?_cons_of_neg _ (by simpa using hpa)]
      exact find?_map_replace_id idf i u u' l hfind hid

/-- Replacing (by id) an element that is the unique satisfier of `q` (and
the unique carrier of its id) makes the replacement the first `q`-hit,
provided the replacement still satisfies `q`. -/
theorem find?_map_replace_unique {α : Type} (idf : α → Nat) (q : α → Bool) (u u' : α)
    (hq : q u' = true) :
    ∀ l : List α, u ∈ l →
      (∀ x ∈ l, idf x = idf u → x = u) →
      (∀ x ∈ l, q x = true → x = u) →
      idf u' = idf u →
      (l.map (fun x => if idf x = idf u' then u' else x)).find? q = some u'
  | [], hmem, _, _, _ => by simp at hmem
  | a :: l, hmem, hidu, hqu, hid => by
    by_cases hcond : idf a = idf u'
    · simp only [List.map_cons, if_pos hcond]
      exact List.find?_cons_of_pos _ hq
    · have hqa : ¬ q a = true := by
        intro hq'
        exact hcond ((congrArg idf (hqu a (List.mem_cons_self a l) hq')).trans hid.symm)
      simp only [List.map_cons, if_neg hcond]
      rw [List.find?_cons_of_neg _ (by simpa using hqa)]
      have hmem' : u ∈ l := by
        rcases List.mem_cons.mp hmem with h | h
        · exact absurd ((congrArg idf h.symm).trans hid.symm) hcond
        · exact h
      exact find?_map_replace_unique idf q u u' hq l hmem'
        (fun x hx => hidu x (List.mem_cons_of_mem a hx))
        (fun x hx => hqu x (List.mem_cons_of_mem a hx)) hid

/-- Saving a transaction found at id `i` (or any transaction carrying that
id) makes it the one found at `i` afterwards. -/
theorem findTransaction_save_found (db : DB) (i : Nat) (t t' : Transaction)
    (hfind : findTransaction db i = some t) (hid : t'.id = i) :
    findTransaction (saveTransaction db t') i = some t' := by
  have hmem : t ∈ db.transactions := List.mem_of_find?_eq_some hfind
  have hti : t.id = i := by simpa using List.find?_some hfind
  have hany : db.transactions.any (fun x => x.id = t'.id) = true :=
    List.any_eq_true.mpr ⟨t, hmem, by simp [hti, hid]⟩
  unfold findTransaction saveTransaction
  rw [if_pos hany]
  exact find?_map_replace_id Transaction.id i t t' db.transactions hfind hid

/-- Saving a book found at id `i` (or any book carrying that id) makes it
the one found at `i` afterwards. -/
theorem findBook_save_found (db : DB) (i : Nat) (b b' : Book)
    (hfind : findBook db i = some b) (hid : b'.id = i) :
    findBook (saveBook db b') i = some b' := by
  have hmem : b ∈ db.books := List.mem_of_find?_eq_some hfind
  have hbi : b.id = i := by simpa using List.find?_some hfind
  have hany : db.books.any (fun x => x.id = b'.id) = true :=
    List.any_eq_true.mpr ⟨b, hmem, by simp [hbi, hid]⟩
  unfold findBook saveBook
  rw [if_pos hany]
  exact find?_map_replace_id Book.id i b b' db.books hfind hid

/-- Saving a user over the unique carrier of its id makes it the first hit
of any search it satisfies, provided `u` was the unique hit of that search. -/
theorem find?_users_save_unique (db : DB) (q : User → Bool) (u u' : User)
    (hmem : u ∈ db.users) (hq : q u' = true) (hid : u'.id = u.id)
    (hidu : ∀ x ∈ db.users, x.id = u.id → x = u)
    (hqu : ∀ x ∈ db.users, q x = true → x = u) :
    (saveUser db u').users.find? q = some u' := by
  have hany : db.users.any (fun x => x.id = u'.id) = true :=
    List.any_eq_true.mpr ⟨u, hmem, by simp [hid]⟩
  unfold saveUser
  rw [if_pos hany]
  exact find?_map_replace_unique User.id q u u' hq db.users hmem hidu hqu hid

/-- Elements of a list whose image under a key function has no duplicates
are determined by their key. -/
theorem unique_of_nodup_key {α β : Type} (f : α → β) (l : List α)
    (hnd : (l.map f).Nodup) (u : α) (hu : u ∈ l) :
    ∀ x ∈ l, f x = f u → x = u :=
  fun x hx h => List.inj_on_of_nodup_map hnd hx hu h

/-! ### Helper lemmas about the JS stable-sort model -/

theorem mem_orderedInsertCmp {α : Type} (cmp : α → α → Int) (x y : α) :
    ∀ l : List α, (y ∈ orderedInsertCmp cmp x l ↔ y = x ∨ y ∈ l)
  | [] => by simp [orderedInsertCmp]
  | b :: bs => by
    unfold orderedInsertCmp
    split
    · simp [List.mem_cons]
    · simp only [List.mem_cons, mem_orderedInsertCmp cmp x y bs]
      tauto

theorem length_orderedInsertCmp {α : Type} (cmp : α → α → Int) (x : α) :
    ∀ l : List α, (orderedInsertCmp cmp x l).length = l.length + 1
  | [] => rfl
  | b :: bs => by
    unfold orderedInsertCmp
    split
    · rfl
    · simp [length_orderedInsertCmp cmp x bs]

theorem mem_jsSort {α : Type} (cmp : α → α → Int) (y : α) :
    ∀ l : List α, (y ∈ jsSort cmp l ↔ y ∈ l)
  | [] => Iff.rfl
  | x :: xs => by
    unfold jsSort
    rw [mem_orderedInsertCmp cmp x y (jsSort cmp xs), mem_jsSort cmp y xs]
    simp [List.mem_cons]

theorem length_jsSort {α : Type} (cmp : α → α → Int) :
    ∀ l : List α, (jsSort cmp l).length = l.length
  | [] => rfl
  | x :: xs => by
    unfold jsSort
    rw [length_orderedInsertCmp cmp x (jsSort cmp xs), length_jsSort cmp xs]
    rfl

theorem pairwise_orderedInsertCmp {α : Type} (cmp : α → α → Int)
    (htot : ∀ a b, cmp a b ≤ 0 ∨ cmp b a ≤ 0)
    (htrans : ∀ a b c, cmp a b ≤ 0 → cmp b c ≤ 0 → cmp a c ≤ 0) (x : α) :
    ∀ l : List α, l.Pairwise (fun a b => cmp a b ≤ 0) →
      (orderedInsertCmp cmp x l).Pairwise (fun a b => cmp a b ≤ 0)
  | [], _ => by simp [orderedInsertCmp]
  | b :: bs, hp => by
    rcases List.pairwise_cons.mp hp with ⟨hb, hbs⟩
    unfold orderedInsertCmp
    split
    · next hxb =>
      refine List.pairwise_cons.mpr ⟨?_, hp⟩
      intro y hy
      rcases List.mem_cons.mp hy with rfl | hy'
      · exact hxb
      · exact htrans x b y hxb (hb y hy')
    · next hxb =>
      refine List.pairwise_cons.mpr
        ⟨?_, pairwise_orderedInsertCmp cmp htot htrans x bs hbs⟩
      intro y hy
      rcases (mem_orderedInsertCmp cmp x y bs).mp hy with rfl | hy'
      · exact (htot y b).resolve_left hxb
      · exact hb y hy'

theorem pairwise_jsSort {α : Type} (cmp : α → α → Int)
    (htot : ∀ a b, cmp a b ≤ 0 ∨ cmp b a ≤ 0)
    (htrans : ∀ a b c, cmp a b ≤ 0 → cmp b c ≤ 0 → cmp a c ≤ 0) :
    ∀ l : List α, (jsSort cmp l).Pairwise (fun a b => cmp a b ≤ 0)
  | [] => List.Pairwise.nil
  | x :: xs =>
    pairwise_orderedInsertCmp cmp htot htrans x (jsSort cmp xs)
      (pairwise_jsSort cmp htot htrans xs)

theorem orderedInsertCmp_partition {α : Type} (pref : α → Bool) (x : α)
    (cmp : α → α → Int)
    (hcmp : ∀ a b, cmp a b =
      (if pref b then (1 : Int) else 0) - (if pref a then (1 : Int) else 0)) :
    ∀ A B : List α, (∀ a ∈ A, pref a = true) → (∀ b ∈ B, pref b = false) →
      orderedInsertCmp cmp x (A ++ B) =
        if pref x then x :: (A ++ B) else A ++ x :: B
  | [], [], _, _ => by
    simp only [List.nil_append, orderedInsertCmp]
    split <;> rfl
  | [], b :: bs, _, hB => by
    have hle : cmp x b ≤ 0 := by
      rw [hcmp x b, hB b (List.mem_cons_self b bs)]
      by_cases hx : pref x <;> simp [hx]
    simp only [List.nil_append, orderedInsertCmp, if_pos hle]
    split <;> rfl
  | a :: as, B, hA, hB => by
    have hpa : pref a = true := hA a (List.mem_cons_self a as)
    by_cases hx : pref x
    · have hle : cmp x a ≤ 0 := by rw [hcmp x a, hpa, if_pos hx]; simp
      simp only [List.cons_append, orderedInsertCmp, if_pos hle, if_pos hx]
      rfl
    · have hgt : ¬ cmp x a ≤ 0 := by
        rw [hcmp x a, hpa, if_neg hx]
        simp
      simp only [List.cons_append, orderedInsertCmp, if_neg hgt, if_neg hx]
      show a :: orderedInsertCmp cmp x (as ++ B) = a :: (as ++ x :: B)
      rw [orderedInsertCmp_partition pref x cmp hcmp as B
        (fun y hy => hA y (List.mem_cons_of_mem a hy)) hB]
      rw [if_neg hx]

theorem jsSort_partition {α : Type} (pref : α → Bool) (cmp : α → α → Int)
    (hcmp : ∀ a b, cmp a b =
      (if pref b then (1 : Int) else 0) - (if pref a then (1 : Int) else 0)) :
    ∀ l : List α, jsSort cmp l = l.filter pref ++ l.filter (fun x => !(pref x))
  | [] => rfl
  | x :: xs => by
    unfold jsSort
    rw [jsSort_partition pref cmp hcmp xs]
    rw [orderedInsertCmp_partition pref x cmp hcmp (xs.filter pref)
      (xs.filter (fun y => !(pref y)))
      (fun y hy => List.of_mem_filter hy)
      (fun y hy => by simpa using List.of_mem_filter hy)]
    by_cases hx : pref x <;> simp [List.filter_cons, hx]

theorem localeCmp_nonpos (s t : String) : localeCmp s t ≤ 0 ↔ s ≤ t := by
  unfold localeCmp
  split_ifs with h1 h2
  · simp [le_of_lt h1]
  · simp [not_le.mpr h2]
  · simp [le_of_not_lt h2]

/-! ### Evaluation lemmas for `updateExchangeStatus` -/

theorem updateExchangeStatus_success (db : DB) (uid eid : Nat) (st msg : String)
    (now : Nat) (t : Transaction) (s : TransactionStatus)
    (hfind : findTransaction db eid = some t)
    (hpart : t.owner = uid ∨ t.requester = uid)
    (hacc : st = "accepted" ∨ st = "rejected" → t.owner = uid)
    (hcan : st = "cancelled" → t.requester = uid)
    (hparse : parseStatus st = some s) :
    updateExchangeStatus db uid (some eid) st msg now =
      (.ok 200 (updatedTxn t uid s st msg now),
       saveTransaction (bookSideEffect db t st) (updatedTxn t uid s st msg now)) := by
  simp only [updateExchangeStatus, hfind]
  rw [if_neg (fun h => h.elim (fun h1 h2 => hpart.elim h1 h2))]
  rw [if_neg (fun h => h.2 (hacc h.1))]
  rw [if_neg (fun h => h.2 (hcan h.1))]
  rw [hparse]
  rfl

theorem updateExchangeStatus_guard_owner (db : DB) (uid eid : Nat)
    (st msg : String) (now : Nat) (t : Transaction)
    (hfind : findTransaction db eid = some t)
    (hpart : t.owner = uid ∨ t.requester = uid)
    (hst : st = "accepted" ∨ st = "rejected")
    (hno : ¬ t.owner = uid) :
    updateExchangeStatus db uid (some eid) st msg now =
      (.err 403 "Only the owner can accept or reject requests", db) := by
  simp only [updateExchangeStatus, hfind]
  rw [if_neg (fun h => h.elim (fun h1 h2 => hpart.elim h1 h2))]
  rw [if_pos ⟨hst, hno⟩]

theorem updateExchangeStatus_guard_requester (db : DB) (uid eid : Nat)
    (st msg : String) (now : Nat) (t : Transaction)
    (hfind : findTransaction db eid = some t)
    (hpart : t.owner = uid ∨ t.requester = uid)
    (hst : st = "cancelled")
    (hno : ¬ t.requester = uid) :
    updateExchangeStatus db uid (some eid) st msg now =
      (.err 403 "Only the requester can cancel requests", db) := by
  simp only [updateExchangeStatus, hfind]
  rw [if_neg (fun h => h.elim (fun h1 h2 => hpart.elim h1 h2))]
  rw [if_neg (fun h => by
    rcases h.1 with h1 | h1 <;> rw [hst] at h1 <;> simp at h1)]
  rw [if_pos ⟨hst, hno⟩]

theorem updateExchangeStatus_invalid (db : DB) (uid eid : Nat)
    (st msg : String) (now : Nat) (t : Transaction)
    (hfind : findTransaction db eid = some t)
    (hpart : t.owner = uid ∨ t.requester = uid)
    (hparse : parseStatus st = none) :
    updateExchangeStatus db uid (some eid) st msg now =
      (.err 500 "Failed to update exchange status", bookSideEffect db t st) := by
  have hna : st ≠ "accepted" := fun h => by rw [h] at hparse; simp [parseStatus] at hparse
  have hnr : st ≠ "rejected" := fun h => by rw [h] at hparse; simp [parseStatus] at hparse
  have hnc : st ≠ "cancelled" := fun h => by rw [h] at hparse; simp [parseStatus] at hparse
  simp only [updateExchangeStatus, hfind]
  rw [if_neg (fun h => h.elim (fun h1 h2 => hpart.elim h1 h2))]
  rw [if_neg (fun h => h.1.elim hna hnr)]
  rw [if_neg (fun h => hnc h.1)]
  rw [hparse]
  rfl

theorem findTransaction_bookSideEffect (db : DB) (t : Transaction)
    (st : String) (i : Nat) :
    findTransaction (bookSideEffect db t st) i = findTransaction db i := by
  unfold bookSideEffect
  cases hb : findBook db t.book
  · rfl
  · rw [findTransaction_saveBook]

theorem transactionId_of_find (db : DB) (i : Nat) (t : Transaction)
    (hfind : findTransaction db i = some t) : t.id = i := by
  simpa using List.find?_some hfind

/-! ### Claim C1 -/

/-- C1 (amended): for a pending transaction and a participant caller,
`updateExchangeStatus` rejects a request for `accepted`/`rejected` from a
non-owner, and a request for `cancelled` from a non-requester, each with a
403 that leaves the database unchanged — but it does **not** reject every
other (caller role, requested status) pair: the remaining enum statuses
`pending`, `modified` and `completed` are applied for any participant, and
an unrecognized status string fails with a 500 (Mongoose enum validation)
that leaves the transaction unchanged. -/
theorem C1_pending_role_guards (db : DB) (uid eid : Nat) (st msg : String)
    (now : Nat) (t : Transaction)
    (hfind : findTransaction db eid = some t)
    (hpend : t.status = .pending)
    (hpart : uid = t.owner ∨ uid = t.requester) :
    ((st = "accepted" ∨ st = "rejected") → uid ≠ t.owner →
      updateExchangeStatus db uid (some eid) st msg now =
        (.err 403 "Only the owner can accept or reject requests", db)) ∧
    (st = "cancelled" → uid ≠ t.requester →
      updateExchangeStatus db uid (some eid) st msg now =
        (.err 403 "Only the requester can cancel requests", db)) ∧
    (st = "pending" ∨ st = "modified" ∨ st = "completed" →
      ∃ s, parseStatus st = some s ∧
        (updateExchangeStatus db uid (some eid) st msg now).fst =
          .ok 200 (updatedTxn t uid s st msg now)) ∧
    (parseStatus st = none →
      (updateExchangeStatus db uid (some eid) st msg now).fst =
        .err 500 "Failed to update exchange status" ∧
      findTransaction (updateExchangeStatus db uid (some eid) st msg now).snd eid =
        some t) := by
  have hpart' : t.owner = uid ∨ t.requester = uid := hpart.imp Eq.symm Eq.symm
  refine ⟨?_, ?_, ?_, ?_⟩
  · intro hst hno
    exact updateExchangeStatus_guard_owner db uid eid st msg now t hfind hpart' hst
      (fun h => hno h.symm)
  · intro hst hno
    exact updateExchangeStatus_guard_requester db uid eid st msg now t hfind hpart' hst
      (fun h => hno h.symm)
  · intro hst
    rcases hst with rfl | rfl | rfl
    · exact ⟨.pending, by decide, by
        rw [updateExchangeStatus_success db uid eid "pending" msg now t .pending hfind hpart'
          (fun h => absurd h (by decide)) (fun h => absurd h (by decide)) (by decide)]⟩
    · exact ⟨.modified, by decide, by
        rw [updateExchangeStatus_success db uid eid "modified" msg now t .modified hfind hpart'
          (fun h => absurd h (by decide)) (fun h => absurd h (by decide)) (by decide)]⟩
    · exact ⟨.completed, by decide, by
        rw [updateExchangeStatus_success db uid eid "completed" msg now t .completed hfind hpart'
          (fun h => absurd h (by decide)) (fun h => absurd h (by decide)) (by decide)]⟩
  · intro hparse
    rw [updateExchangeStatus_invalid db uid eid st msg now t hfind hpart' hparse]
    exact ⟨rfl, by rw [findTransaction_bookSideEffect]; exact hfind⟩

/-- C1 counterexample: in `exDbPending` the transaction is `pending` and
caller 2 is the requester (a participant); the pair
(requester, `completed`) is not among the allowed transitions, yet the call
is *not* rejected: it answers 200 and overwrites the stored status with
`completed`. -/
theorem C1_counterexample :
    exTxnPending.status = .pending ∧
    exTxnPending.requester = 2 ∧
    (okData (updateExchangeStatus exDbPending 2 (some 1) "completed" "" 0).fst).map
        Transaction.status = some .completed ∧
    (findTransaction (updateExchangeStatus exDbPending 2 (some 1) "completed" "" 0).snd
        1).map Transaction.status = some .completed := by
  decide

/-- C1 witness: the theorem applied in `exDbPending` to the requester
(caller 2) asking for `accepted`, which the guard rejects with a 403. -/
theorem C1_witness :
    findTransaction exDbPending 1 = some exTxnPending ∧
    updateExchangeStatus exDbPending 2 (some 1) "accepted" "" 0 =
      (.err 403 "Only the owner can accept or reject requests", exDbPending) :=
  ⟨by decide,
    (C1_pending_role_guards exDbPending 2 1 "accepted" "" 0 exTxnPending
      (by decide) (by decide) (Or.inr (by decide))).1 (Or.inl rfl) (by decide)⟩

/-! ### Claim C2 -/

/-- C2 (amended): the code never inspects the current status, so
`rejected`, `cancelled` and `completed` are **not** terminal: from any of
them the requester can still move the transaction to `cancelled` (and the
stored status is overwritten); and from `pending` every one of the six
enum statuses — not just `accepted`/`rejected`/`cancelled` — is reachable
in one `updateExchangeStatus` step by a suitably-chosen participant. -/
theorem C2_no_terminal_enforcement (db : DB) (uid eid : Nat) (msg : String)
    (now : Nat) (t : Transaction)
    (hfind : findTransaction db eid = some t) :
    (t.status = .rejected ∨ t.status = .cancelled ∨ t.status = .completed →
      uid = t.requester →
      (updateExchangeStatus db uid (some eid) "cancelled" msg now).fst =
        .ok 200 (updatedTxn t uid .cancelled "cancelled" msg now) ∧
      findTransaction (updateExchangeStatus db uid (some eid) "cancelled" msg now).snd
          eid = some (updatedTxn t uid .cancelled "cancelled" msg now) ∧
      (updatedTxn t uid .cancelled "cancelled" msg now).status = .cancelled) ∧
    (t.status = .pending → ∀ s : TransactionStatus, ∃ stStr caller,
      parseStatus stStr = some s ∧ (caller = t.owner ∨ caller = t.requester) ∧
      (updateExchangeStatus db caller (some eid) stStr msg now).fst =
        .ok 200 (updatedTxn t caller s stStr msg now)) := by
  constructor
  · intro _ huid
    have heq := updateExchangeStatus_success db uid eid "cancelled" msg now t .cancelled
      hfind (Or.inr huid.symm)
      (fun h => absurd h (by decide)) (fun _ => huid.symm) (by decide)
    refine ⟨by rw [heq], ?_, rfl⟩
    rw [heq]
    exact findTransaction_save_found _ eid t _
      (by rw [findTransaction_bookSideEffect]; exact hfind)
      (transactionId_of_find db eid t hfind)
  · intro _ s
    have run : ∀ (stStr : String) (caller : Nat), parseStatus stStr = some s →
        (caller = t.owner ∨ caller = t.requester) →
        (stStr = "accepted" ∨ stStr = "rejected" → t.owner = caller) →
        (stStr = "cancelled" → t.requester = caller) →
        ∃ stStr' caller', parseStatus stStr' = some s ∧
          (caller' = t.owner ∨ caller' = t.requester) ∧
          (updateExchangeStatus db caller' (some eid) stStr' msg now).fst =
            .ok 200 (updatedTxn t caller' s stStr' msg now) := by
      intro stStr caller hp hc hacc hcan
      refine ⟨stStr, caller, hp, hc, ?_⟩
      rw [updateExchangeStatus_success db caller eid stStr msg now t s hfind
        (hc.imp Eq.symm Eq.symm) hacc hcan hp]
    cases s
    · exact run "pending" t.owner (by decide) (Or.inl rfl)
        (fun h => absurd h (by decide)) (fun h => absurd h (by decide))
    · exact run "accepted" t.owner (by decide) (Or.inl rfl)
        (fun _ => rfl) (fun h => absurd h (by decide))
    · exact run "rejected" t.owner (by decide) (Or.inl rfl)
        (fun _ => rfl) (fun h => absurd h (by decide))
    · exact run "modified" t.owner (by decide) (Or.inl rfl)
        (fun h => absurd h (by decide)) (fun h => absurd h (by decide))
    · exact run "completed" t.owner (by decide) (Or.inl rfl)
        (fun h => absurd h (by decide)) (fun h => absurd h (by decide))
    · exact run "cancelled" t.requester (by decide) (Or.inr rfl)
        (fun h => absurd h (by decide)) (fun _ => rfl)

/-- C2 counterexample: in `exDbCompleted` the transaction sits in the
(per the claim terminal) status `completed`, yet the requester's
`UpdateStatus` to `cancelled` succeeds with a 200 and the stored status
changes to `cancelled`. -/
theorem C2_counterexample :
    (findTransaction exDbCompleted 1).map Transaction.status = some .completed ∧
    (okData (updateExchangeStatus exDbCompleted 2 (some 1) "cancelled" "" 0).fst).map
        Transaction.status = some .cancelled ∧
    (findTransaction (updateExchangeStatus exDbCompleted 2 (some 1) "cancelled" "" 0).snd
        1).map Transaction.status = some .cancelled := by
  decide

/-- C2 witness: the amended theorem applied in `exDbCompleted`: the
requester (caller 2) cancels a `completed` transaction and the call
succeeds. -/
theorem C2_witness :
    findTransaction exDbCompleted 1 = some { exTxnPending with status := .completed } ∧
    (updateExchangeStatus exDbCompleted 2 (some 1) "cancelled" "" 0).fst =
      .ok 200 (updatedTxn { exTxnPending with status := .completed } 2 .cancelled
        "cancelled" "" 0) :=
  ⟨by decide,
    ((C2_no_terminal_enforcement exDbCompleted 2 1 "" 0
        { exTxnPending with status := .completed } (by decide)).1
      (Or.inr (Or.inr (by decide))) (by decide)).1⟩

/-! ### Claim C3 -/

theorem createExchangeRequest_success (db : DB) (uid bookId : Nat)
    (terms : Terms) (msg : String) (tid now : Nat) (b : Book)
    (hb : findBook db bookId = some b) (hst : b.status = .available)
    (hno : ¬ b.owner = uid) (hterms : termsValid terms = true) :
    createExchangeRequest db uid bookId terms msg tid now =
      (.ok 201 (newRequestTxn uid bookId terms msg tid now b.owner),
       saveBook (saveTransaction db (newRequestTxn uid bookId terms msg tid now b.owner))
         { b with status := .pending }) := by
  simp only [createExchangeRequest, hb]
  rw [if_neg (fun h => h hst), if_neg hno, if_pos hterms]
  rfl

theorem bookId_of_find (db : DB) (i : Nat) (b : Book)
    (hfind : findBook db i = some b) : b.id = i := by
  simpa using List.find?_some hfind

theorem createExchangeRequest_noBook (db : DB) (uid bookId : Nat)
    (terms : Terms) (msg : String) (tid now : Nat)
    (hb : findBook db bookId = none) :
    createExchangeRequest db uid bookId terms msg tid now =
      (.err 404 "Book not found", db) := by
  simp only [createExchangeRequest, hb]

theorem createExchangeRequest_notAvailable (db : DB) (uid bookId : Nat)
    (terms : Terms) (msg : String) (tid now : Nat) (b : Book)
    (hb : findBook db bookId = some b) (hst : ¬ b.status = .available) :
    createExchangeRequest db uid bookId terms msg tid now =
      (.err 400 "Book is not available for exchange", db) := by
  simp only [createExchangeRequest, hb]
  rw [if_pos hst]

theorem createExchangeRequest_ownBook (db : DB) (uid bookId : Nat)
    (terms : Terms) (msg : String) (tid now : Nat) (b : Book)
    (hb : findBook db bookId = some b) (hst : b.status = .available)
    (hown : b.owner = uid) :
    createExchangeRequest db uid bookId terms msg tid now =
      (.err 400 "Cannot request your own book", db) := by
  simp only [createExchangeRequest, hb]
  rw [if_neg (fun h => h hst), if_pos hown]

theorem createExchangeRequest_invalidTerms (db : DB) (uid bookId : Nat)
    (terms : Terms) (msg : String) (tid now : Nat) (b : Book)
    (hb : findBook db bookId = some b) (hst : b.status = .available)
    (hown : ¬ b.owner = uid) (hterms : ¬ termsValid terms = true) :
    createExchangeRequest db uid bookId terms msg tid now =
      (.err 500 "Failed to create exchange request", db) := by
  simp only [createExchangeRequest, hb]
  rw [if_neg (fun h => h hst), if_neg hown, if_neg hterms]

/-- C3 (amended): `createExchangeRequest` succeeds exactly when the
referenced book exists, is `available`, the caller does not own it, **and**
the terms pass the schema validation run by `transaction.save()`
(`duration` within `[1, 90]`) — schema-invalid terms make the save throw,
answered as a 500. On success it stores a fresh `pending` transaction whose
message log is seeded with the caller's opening message iff one was
supplied, and flips the book to `pending`; on every failure — the
validation failure included — the database (transactions and books alike)
is left untouched. -/
theorem C3_createRequest_iff (db : DB) (uid bookId : Nat) (terms : Terms)
    (msg : String) (tid now : Nat) :
    ((∃ t, (createExchangeRequest db uid bookId terms msg tid now).fst = .ok 201 t) ↔
      (termsValid terms = true ∧
       ∃ b, findBook db bookId = some b ∧ b.status = .available ∧ ¬ b.owner = uid)) ∧
    (∀ b, termsValid terms = true → findBook db bookId = some b →
      b.status = .available → ¬ b.owner = uid →
      createExchangeRequest db uid bookId terms msg tid now =
        (.ok 201 (newRequestTxn uid bookId terms msg tid now b.owner),
         saveBook (saveTransaction db (newRequestTxn uid bookId terms msg tid now b.owner))
           { b with status := .pending }) ∧
      (newRequestTxn uid bookId terms msg tid now b.owner).status = .pending ∧
      (¬ db.transactions.any (fun x => x.id = tid) = true →
        (createExchangeRequest db uid bookId terms msg tid now).snd.transactions =
          db.transactions ++ [newRequestTxn uid bookId terms msg tid now b.owner]) ∧
      findBook (createExchangeRequest db uid bookId terms msg tid now).snd bookId =
        some { b with status := .pending }) ∧
    (∀ c e, (createExchangeRequest db uid bookId terms msg tid now).fst = .err c e →
      (createExchangeRequest db uid bookId terms msg tid now).snd = db) := by
  refine ⟨⟨?_, ?_⟩, ?_, ?_⟩
  · intro ⟨t, ht⟩
    cases hb : findBook db bookId with
    | none =>
      rw [createExchangeRequest_noBook db uid bookId terms msg tid now hb] at ht
      simp at ht
    | some b =>
      by_cases hst : b.status = .available
      · by_cases hown : b.owner = uid
        · rw [createExchangeRequest_ownBook db uid bookId terms msg tid now b
            hb hst hown] at ht
          simp at ht
        · by_cases hterms : termsValid terms = true
          · exact ⟨hterms, b, rfl, hst, hown⟩
          · rw [createExchangeRequest_invalidTerms db uid bookId terms msg tid now b
              hb hst hown hterms] at ht
            simp at ht
      · rw [createExchangeRequest_notAvailable db uid bookId terms msg tid now b
          hb hst] at ht
        simp at ht
  · intro ⟨hterms, b, hb, hst, hown⟩
    exact ⟨_, by rw [createExchangeRequest_success db uid bookId terms msg tid now b
      hb hst hown hterms]⟩
  · intro b hterms hb hst hown
    have heq := createExchangeRequest_success db uid bookId terms msg tid now b
      hb hst hown hterms
    refine ⟨heq, rfl, ?_, ?_⟩
    · intro hfresh
      rw [heq]
      show (saveBook (saveTransaction db _) _).transactions = _
      rw [transactions_saveBook]
      unfold saveTransaction
      have hfresh' : ¬ (db.transactions.any fun x =>
          x.id = (newRequestTxn uid bookId terms msg tid now b.owner).id) = true := hfresh
      rw [if_neg hfresh']
    · rw [heq]
      show findBook (saveBook (saveTransaction db _) _) bookId = _
      refine findBook_save_found _ bookId b _ ?_ (bookId_of_find db bookId b hb)
      show findBook (saveTransaction db _) bookId = some b
      rw [findBook_saveTransaction]
      exact hb
  · intro c e herr
    cases hb : findBook db bookId with
    | none => rw [createExchangeRequest_noBook db uid bookId terms msg tid now hb]
    | some b =>
      by_cases hst : b.status = .available
      · by_cases hown : b.owner = uid
        · rw [createExchangeRequest_ownBook db uid bookId terms msg tid now b hb hst hown]
        · by_cases hterms : termsValid terms = true
          · rw [createExchangeRequest_success db uid bookId terms msg tid now b
              hb hst hown hterms] at herr
            simp at herr
          · rw [createExchangeRequest_invalidTerms db uid bookId terms msg tid now b
              hb hst hown hterms]
      · rw [createExchangeRequest_notAvailable db uid bookId terms msg tid now b hb hst]

/-- C3 counterexample: in `exDbAvail` the book exists, is `available`, and
caller 2 does not own it — the original claim's exact success condition —
yet a request with `duration = 0` fails the schema validation at
`transaction.save()`: the call answers 500 and writes nothing, so "succeeds
if and only if the book exists, is available, and the caller is not the
owner" is false. -/
theorem C3_counterexample :
    findBook exDbAvail 1 = some { exBookPending with status := .available } ∧
    ¬ ({ exBookPending with status := .available } : Book).owner = 2 ∧
    (createExchangeRequest exDbAvail 2 1 { exTerms with duration := 0 } "hi" 1 0).fst =
      .err 500 "Failed to create exchange request" ∧
    (createExchangeRequest exDbAvail 2 1 { exTerms with duration := 0 } "hi" 1 0).snd =
      exDbAvail := by
  decide

/-- C3 witness: in `exDbAvail` user 2 successfully requests the available
book 1 with valid terms (`duration = 5`) and an opening message, and the
stored book flips to `pending`; the failure direction is exercised on
`exDbPending` (book not available), which leaves the database unchanged. -/
theorem C3_witness :
    findBook exDbAvail 1 = some { exBookPending with status := .available } ∧
    termsValid exTerms = true ∧
    createExchangeRequest exDbAvail 2 1 exTerms "hi" 1 0 =
      (.ok 201 (newRequestTxn 2 1 exTerms "hi" 1 0 1),
       saveBook (saveTransaction exDbAvail (newRequestTxn 2 1 exTerms "hi" 1 0 1))
         { { exBookPending with status := .available } with status := .pending }) ∧
    ((createExchangeRequest exDbPending 2 1 exTerms "hi" 1 0).fst =
        .err 400 "Book is not available for exchange" →
      (createExchangeRequest exDbPending 2 1 exTerms "hi" 1 0).snd = exDbPending) :=
  ⟨by decide, by decide,
    ((C3_createRequest_iff exDbAvail 2 1 exTerms "hi" 1 0).2.1
      { exBookPending with status := .available } (by decide) (by decide)
      (by decide) (by decide)).1,
    fun h => (C3_createRequest_iff exDbPending 2 1 exTerms "hi" 1 0).2.2 400
      "Book is not available for exchange" h⟩

/-! ### Claims C4 and C5 -/

/-- Inversion: a 200 answer from `updateExchangeStatus` pins down the whole
run — the caller was a participant with the right role for the requested
status, the status string parsed, the returned transaction is the updated
one, and the final state is the book write followed by the transaction
write. -/
theorem updateExchangeStatus_ok_inv (db : DB) (uid eid : Nat) (st msg : String)
    (now : Nat) (t : Transaction) (c : Nat) (t' : Transaction)
    (hfind : findTransaction db eid = some t)
    (hok : (updateExchangeStatus db uid (some eid) st msg now).fst = .ok c t') :
    (t.owner = uid ∨ t.requester = uid) ∧
    (st = "accepted" ∨ st = "rejected" → t.owner = uid) ∧
    (st = "cancelled" → t.requester = uid) ∧
    ∃ s, parseStatus st = some s ∧ c = 200 ∧
      t' = updatedTxn t uid s st msg now ∧
      (updateExchangeStatus db uid (some eid) st msg now).snd =
        saveTransaction (bookSideEffect db t st) (updatedTxn t uid s st msg now) := by
  by_cases h1 : ¬(t.owner = uid) ∧ ¬(t.requester = uid)
  · simp only [updateExchangeStatus, hfind, if_pos h1] at hok
    exact absurd hok (fun h => ApiResult.noConfusion h)
  · by_cases h2 : (st = "accepted" ∨ st = "rejected") ∧ ¬(t.owner = uid)
    · simp only [updateExchangeStatus, hfind, if_neg h1, if_pos h2] at hok
      exact absurd hok (fun h => ApiResult.noConfusion h)
    · by_cases h3 : st = "cancelled" ∧ ¬(t.requester = uid)
      · simp only [updateExchangeStatus, hfind, if_neg h1, if_neg h2, if_pos h3] at hok
        exact absurd hok (fun h => ApiResult.noConfusion h)
      · have hpart : t.owner = uid ∨ t.requester = uid := by
          rcases not_and_or.mp h1 with h | h
          · exact Or.inl (not_not.mp h)
          · exact Or.inr (not_not.mp h)
        have hacc : st = "accepted" ∨ st = "rejected" → t.owner = uid :=
          fun hst => by
            by_contra hno
            exact h2 ⟨hst, hno⟩
        have hcan : st = "cancelled" → t.requester = uid :=
          fun hst => by
            by_contra hno
            exact h3 ⟨hst, hno⟩
        cases hparse : parseStatus st with
        | none =>
          rw [updateExchangeStatus_invalid db uid eid st msg now t hfind hpart hparse]
            at hok
          simp at hok
        | some s =>
          rw [updateExchangeStatus_success db uid eid st msg now t s hfind hpart
            hacc hcan hparse] at hok
          simp only [ApiResult.ok.injEq] at hok
          exact ⟨hpart, hacc, hcan, s, rfl, hok.1.symm, hok.2.symm, by
            rw [updateExchangeStatus_success db uid eid st msg now t s hfind hpart
              hacc hcan hparse]⟩

/-- C4 (confirmed): from a pending transaction, a successful update to
`rejected` or `cancelled` stores the referenced book with status
`available`, a successful update to `accepted` stores it with status
`pending`; and when the referenced book no longer exists the book write is
silently skipped (the books collection is untouched) while the updated
transaction is still persisted. -/
theorem C4_book_status_side_effect (db : DB) (uid eid : Nat) (st msg : String)
    (now : Nat) (t : Transaction) (c : Nat) (t' : Transaction)
    (hfind : findTransaction db eid = some t)
    (hpend : t.status = .pending)
    (hok : (updateExchangeStatus db uid (some eid) st msg now).fst = .ok c t') :
    (st = "accepted" → ∀ b, findBook db t.book = some b →
      findBook (updateExchangeStatus db uid (some eid) st msg now).snd t.book =
        some { b with status := .pending }) ∧
    ((st = "rejected" ∨ st = "cancelled") → ∀ b, findBook db t.book = some b →
      findBook (updateExchangeStatus db uid (some eid) st msg now).snd t.book =
        some { b with status := .available }) ∧
    (findBook db t.book = none →
      (updateExchangeStatus db uid (some eid) st msg now).snd.books = db.books) ∧
    findTransaction (updateExchangeStatus db uid (some eid) st msg now).snd eid =
      some t' := by
  obtain ⟨-, -, -, s, -, -, ht', hsnd⟩ :=
    updateExchangeStatus_ok_inv db uid eid st msg now t c t' hfind hok
  refine ⟨?_, ?_, ?_, ?_⟩
  · rintro rfl b hb
    rw [hsnd, findBook_saveTransaction]
    unfold bookSideEffect
    simp only [hb, ite_true]
    exact findBook_save_found db t.book b _ hb (bookId_of_find db t.book b hb)
  · rintro hst b hb
    rw [hsnd, findBook_saveTransaction]
    unfold bookSideEffect
    simp only [hb]
    have : (if st = "accepted" then BookStatus.pending
        else if st = "rejected" ∨ st = "cancelled" then BookStatus.available
        else b.status) = BookStatus.available := by
      rcases hst with rfl | rfl <;> simp
    rw [this]
    exact findBook_save_found db t.book b _ hb (bookId_of_find db t.book b hb)
  · intro hb
    rw [hsnd, books_saveTransaction]
    unfold bookSideEffect
    simp only [hb]
  · rw [hsnd, ht']
    exact findTransaction_save_found _ eid t _
      (by rw [findTransaction_bookSideEffect]; exact hfind)
      (transactionId_of_find db eid t hfind)

/-- C4 witness: the owner rejects the pending request in `exDbPending`; the
book comes back as `available` in the stored state. -/
theorem C4_witness :
    findTransaction exDbPending 1 = some exTxnPending ∧
    (updateExchangeStatus exDbPending 1 (some 1) "rejected" "" 0).fst =
      .ok 200 (updatedTxn exTxnPending 1 .rejected "rejected" "" 0) ∧
    findBook (updateExchangeStatus exDbPending 1 (some 1) "rejected" "" 0).snd 1 =
      some { exBookPending with status := .available } :=
  ⟨by decide, by decide,
    (C4_book_status_side_effect exDbPending 1 1 "rejected" "" 0 exTxnPending 200
        (updatedTxn exTxnPending 1 .rejected "rejected" "" 0)
        (by decide) (by decide) (by decide)).2.1
      (Or.inl rfl) exBookPending (by decide)⟩

/-- C5 (amended): every successful transition to `accepted`, `rejected` or
`cancelled` appends exactly one message authored by the acting user; its
content is the fixed text (`Request accepted` / `Request rejected` /
`Request withdrawn`) when no caller message is supplied, and the caller's
text **alone** — not a concatenation with the fixed text — when one is
supplied. -/
theorem C5_transition_message (db : DB) (uid eid : Nat) (st msg : String)
    (now : Nat) (t : Transaction) (c : Nat) (t' : Transaction)
    (hfind : findTransaction db eid = some t)
    (hst : st = "accepted" ∨ st = "rejected" ∨ st = "cancelled")
    (hok : (updateExchangeStatus db uid (some eid) st msg now).fst = .ok c t') :
    t'.messages = t.messages ++
      [{ sender := uid,
         content := if msg = "" then statusMessageFor st else msg,
         createdAt := now, read := false, notified := false }] ∧
    t'.lastModifiedBy = uid := by
  obtain ⟨-, -, -, s, -, -, ht', -⟩ :=
    updateExchangeStatus_ok_inv db uid eid st msg now t c t' hfind hok
  subst ht'
  have hsm : statusMessageFor st ≠ "" := by
    rcases hst with rfl | rfl | rfl <;> decide
  constructor
  · show (if statusMessageFor st ≠ "" ∨ msg ≠ "" then _ else _) = _
    rw [if_pos (Or.inl hsm)]
    rfl
  · rfl

/-- C5 counterexample: the owner accepts with caller message `Thanks`; the
single appended message's content is `Thanks` — not the concatenation of
the fixed text `Request accepted` with the caller's text, in either order,
refuting the claim's concatenation reading. -/
theorem C5_counterexample :
    (okData (updateExchangeStatus exDbPending 1 (some 1) "accepted" "Thanks" 7).fst).map
        (fun t => t.messages.map Message.content) = some ["Thanks"] ∧
    ¬ ("Thanks" = "Request accepted" ++ "Thanks") ∧
    ¬ ("Thanks" = "Thanks" ++ "Request accepted") := by
  decide

/-- C5 witness: the requester cancels without a caller message; exactly one
message is appended, authored by the requester, with the fixed text
`Request withdrawn`. -/
theorem C5_witness :
    (updateExchangeStatus exDbPending 2 (some 1) "cancelled" "" 3).fst =
      .ok 200 (updatedTxn exTxnPending 2 .cancelled "cancelled" "" 3) ∧
    (updatedTxn exTxnPending 2 .cancelled "cancelled" "" 3).messages =
      exTxnPending.messages ++
        [{ sender := 2, content := "Request withdrawn", createdAt := 3,
           read := false, notified := false }] :=
  ⟨by decide,
    by
      have h := (C5_transition_message exDbPending 2 1 "cancelled" "" 3 exTxnPending
        200 (updatedTxn exTxnPending 2 .cancelled "cancelled" "" 3)
        (by decide) (Or.inr (Or.inr rfl)) (by decide)).1
      simpa using h⟩

/-! ### Claim C6 -/

/-- C6 (confirmed): a failed login answers 400 with the body
`Invalid credentials` on both failure causes — unknown email (first run)
and wrong password for an existing email (second run) — so the two error
outputs are byte-identical and independent of the cause. -/
theorem C6_login_uniform_failure (db1 db2 : DB)
    (hcmp1 hcmp2 : String → String → Bool) (e1 p1 e2 p2 : String) (u : User)
    (h1 : findUserByEmail db1 e1 = none)
    (h2 : findUserByEmail db2 e2 = some u)
    (h3 : hcmp2 p2 u.password = false) :
    login db1 hcmp1 e1 p1 = .err 400 "Invalid credentials" ∧
    login db2 hcmp2 e2 p2 = .err 400 "Invalid credentials" ∧
    login db1 hcmp1 e1 p1 = login db2 hcmp2 e2 p2 := by
  have ha : login db1 hcmp1 e1 p1 = .err 400 "Invalid credentials" := by
    simp only [login, h1]
  have hb : login db2 hcmp2 e2 p2 = .err 400 "Invalid credentials" := by
    simp only [login, h2]
    rw [if_pos (by simp [h3])]
  exact ⟨ha, hb, ha.trans hb.symm⟩

/-- C6 witness: unknown email against an empty store and wrong password
against `exDbUser` produce the same response. -/
theorem C6_witness :
    findUserByEmail { users := [], books := [], transactions := [] } "ghost@x" = none ∧
    findUserByEmail exDbUser "a@x" = some exUser ∧
    exCmp "bad" exUser.password = false ∧
    login { users := [], books := [], transactions := [] } exCmp "ghost@x" "pw" =
      login exDbUser exCmp "a@x" "bad" :=
  ⟨by decide, by decide, by decide,
    (C6_login_uniform_failure { users := [], books := [], transactions := [] }
      exDbUser exCmp exCmp "ghost@x" "pw" "a@x" "bad" exUser
      (by decide) (by decide) (by decide)).2.2⟩

/-! ### Claim C7 -/

/-- Two consecutive replace-saves of users carrying the same id collapse to
the final one. -/
theorem saveUser_saveUser (db : DB) (u1 u2 : User) (hid : u2.id = u1.id)
    (hmem : ∃ x ∈ db.users, x.id = u1.id) :
    saveUser (saveUser db u1) u2 = saveUser db u2 := by
  obtain ⟨w, hw, hwid⟩ := hmem
  have hany1 : db.users.any (fun x => x.id = u1.id) = true :=
    List.any_eq_true.mpr ⟨w, hw, by simp [hwid]⟩
  have hany2' : db.users.any (fun x => x.id = u2.id) = true :=
    List.any_eq_true.mpr ⟨w, hw, by simp [hwid, hid]⟩
  unfold saveUser
  rw [if_pos hany1]
  have hmem1 : u1 ∈ db.users.map (fun x => if x.id = u1.id then u1 else x) :=
    List.mem_map.mpr ⟨w, hw, by rw [if_pos hwid]⟩
  have hany2 : (db.users.map (fun x => if x.id = u1.id then u1 else x)).any
      (fun x => x.id = u2.id) = true :=
    List.any_eq_true.mpr ⟨u1, hmem1, by simp [hid]⟩
  rw [if_pos hany2, if_pos hany2']
  have : (db.users.map (fun x => if x.id = u1.id then u1 else x)).map
      (fun x => if x.id = u2.id then u2 else x) =
      db.users.map (fun x => if x.id = u2.id then u2 else x) := by
    rw [List.map_map]
    refine List.map_congr_left ?_
    intro a _
    by_cases ha : a.id = u1.id
    · simp only [Function.comp, if_pos ha, if_pos (hid.symm ▸ ha : a.id = u2.id)]
      rw [if_pos (by rw [hid])]
    · simp only [Function.comp, if_neg ha,
        if_neg (fun hh => ha (by rw [← hid]; exact hh))]
  rw [this]

theorem userEmail_of_find (db : DB) (e : String) (u : User)
    (hfind : findUserByEmail db e = some u) : u.email = e := by
  simpa using List.find?_some hfind

/-- C7 (amended): `forgotPassword` answers 404 for an unknown email; for a
known user it generates a six-digit numeric code and stores it with expiry
exactly one hour (3 600 000 ms) ahead; when the email send fails it reports
a 500 and **clears** both reset fields (sets them to unset) — which equals
the pre-call record only when no reset code was stored before the call: a
surviving earlier code is wiped, not restored. -/
theorem C7_forgot_password (db : DB) (email : String) (rand now : Nat)
    (emailOk : Bool) (u : User)
    (hfind : findUserByEmail db email = some u)
    (hids : (db.users.map (fun x => x.id)).Nodup)
    (hemails : (db.users.map (fun x => x.email)).Nodup) :
    (100000 ≤ generateOtp rand ∧ generateOtp rand < 1000000) ∧
    (emailOk = true →
      (forgotPassword db email rand now emailOk).fst = .ok 200 () ∧
      findUserByEmail (forgotPassword db email rand now emailOk).snd email =
        some { u with
          resetPasswordToken := some (toString (generateOtp rand)),
          resetPasswordExpires := some (now + 3600000) }) ∧
    (emailOk = false →
      (forgotPassword db email rand now emailOk).fst =
        .err 500 "Failed to send OTP email" ∧
      findUserByEmail (forgotPassword db email rand now emailOk).snd email =
        some { u with resetPasswordToken := none, resetPasswordExpires := none }) ∧
    (∀ (db' : DB) (e' : String), findUserByEmail db' e' = none →
      forgotPassword db' e' rand now emailOk = (.err 404 "User not found", db')) := by
  have hmem : u ∈ db.users := List.mem_of_find?_eq_some hfind
  have huemail : u.email = email := userEmail_of_find db email u hfind
  have hidu : ∀ x ∈ db.users, x.id = u.id → x = u :=
    unique_of_nodup_key User.id db.users hids u hmem
  have hqu : ∀ x ∈ db.users, (decide (x.email = email)) = true → x = u := by
    intro x hx hxe
    exact unique_of_nodup_key User.email db.users hemails u hmem x hx
      (by rw [of_decide_eq_true hxe, huemail])
  have hfindAfter : ∀ u' : User, u'.id = u.id → u'.email = email →
      findUserByEmail (saveUser db u') email = some u' := by
    intro u' hi he
    exact find?_users_save_unique db (fun x => x.email = email) u u' hmem
      (by simp [he]) hi hidu hqu
  refine ⟨?_, ?_, ?_, ?_⟩
  · constructor
    · exact Nat.le_add_right 100000 (rand % 900000)
    · have := Nat.mod_lt rand (show 0 < 900000 by decide)
      unfold generateOtp
      omega
  · rintro rfl
    have heq : forgotPassword db email rand now true =
        (.ok 200 (), saveUser db
          { u with resetPasswordToken := some (toString (generateOtp rand)),
                   resetPasswordExpires := some (now + 3600000) }) := by
      simp only [forgotPassword, hfind]
      rfl
    refine ⟨by rw [heq], ?_⟩
    rw [heq]
    exact hfindAfter _ rfl huemail
  · rintro rfl
    have heq : forgotPassword db email rand now false =
        (.err 500 "Failed to send OTP email",
         saveUser (saveUser db
           { u with resetPasswordToken := some (toString (generateOtp rand)),
                    resetPasswordExpires := some (now + 3600000) })
           { u with resetPasswordToken := none, resetPasswordExpires := none }) := by
      simp only [forgotPassword, hfind]
      rfl
    refine ⟨by rw [heq], ?_⟩
    rw [heq]
    rw [saveUser_saveUser db
      { u with resetPasswordToken := some (toString (generateOtp rand)),
               resetPasswordExpires := some (now + 3600000) }
      { u with resetPasswordToken := none, resetPasswordExpires := none }
      rfl ⟨u, hmem, rfl⟩]
    exact hfindAfter _ rfl huemail
  · intro db' e' hnone
    simp only [forgotPassword, hnone]

/-- C7 counterexample: `exUser` enters `forgotPassword` with a live reset
code `111111`; the email send fails; afterwards the reset fields are
cleared (`none`), not restored — the record has changed with respect to the
reset-code fields, contrary to the claim's "ends unchanged". -/
theorem C7_counterexample :
    exDbUser.users.map (fun x => (x.resetPasswordToken, x.resetPasswordExpires)) =
      [(some "111111", some 10)] ∧
    (forgotPassword exDbUser "a@x" 0 0 false).fst =
      .err 500 "Failed to send OTP email" ∧
    (forgotPassword exDbUser "a@x" 0 0 false).snd.users.map
        (fun x => (x.resetPasswordToken, x.resetPasswordExpires)) = [(none, none)] ∧
    [((none : Option String), (none : Option Nat))] ≠ [(some "111111", some 10)] := by
  decide

/-- C7 witness: the amended theorem applied to `exDbUserNoOtp` with a
failing email send: the call reports the 500 and the reset fields end
cleared; the six-digit bound is exercised at `rand = 899999`. -/
theorem C7_witness :
    findUserByEmail exDbUserNoOtp "a@x" = some exUserNoOtp ∧
    (100000 ≤ generateOtp 899999 ∧ generateOtp 899999 < 1000000) ∧
    findUserByEmail (forgotPassword exDbUserNoOtp "a@x" 899999 0 false).snd "a@x" =
      some { exUserNoOtp with
             resetPasswordToken := none
             resetPasswordExpires := none } :=
  ⟨by decide,
    (C7_forgot_password exDbUserNoOtp "a@x" 899999 0 false exUserNoOtp
      (by decide) (by decide) (by decide)).1,
    ((C7_forgot_password exDbUserNoOtp "a@x" 899999 0 false exUserNoOtp
      (by decide) (by decide) (by decide)).2.2.1 rfl).2⟩

/-! ### Claim C8 -/

theorem answersMatch_all_three (hcmp : String → String → Bool) (u : User)
    (a0 a1 a2 : String) :
    ((answersMatch hcmp u.securityAnswers [a0, a1, a2]).all (fun m => m) = true) ↔
      (answerMatches hcmp u 0 a0 = true ∧ answerMatches hcmp u 1 a1 = true ∧
       answerMatches hcmp u 2 a2 = true) := by
  show ([answerMatches hcmp u 0 a0, answerMatches hcmp u 1 a1,
         answerMatches hcmp u 2 a2].all (fun m => m) = true) ↔ _
  simp [List.all_cons]

/-- C8 (amended): both security-answer endpoints lower-case and trim each
submitted answer and bcrypt-compare it positionally against the stored
hashes; they succeed iff all three positions match, and any mismatch yields
the uniform `Invalid security answers` (no hint which answer failed) — but
the unknown-email failure answers with the *different* string
`Invalid email or security answers`, so the error output does reveal
whether the email exists. -/
theorem C8_security_answer_check (db : DB) (hcmp : String → String → Bool)
    (hash : String → String) (email : String) (u : User) (a0 a1 a2 : String)
    (hemail : ¬ email = "")
    (hfind : findUserByEmail db email = some u) :
    (verifySecurityAnswers db hcmp email [a0, a1, a2] = .ok 200 () ↔
      (answerMatches hcmp u 0 a0 = true ∧ answerMatches hcmp u 1 a1 = true ∧
       answerMatches hcmp u 2 a2 = true)) ∧
    (¬(answerMatches hcmp u 0 a0 = true ∧ answerMatches hcmp u 1 a1 = true ∧
       answerMatches hcmp u 2 a2 = true) →
      verifySecurityAnswers db hcmp email [a0, a1, a2] =
        .err 400 "Invalid security answers") ∧
    (∀ e', ¬ e' = "" → findUserByEmail db e' = none →
      verifySecurityAnswers db hcmp e' [a0, a1, a2] =
        .err 400 "Invalid email or security answers") ∧
    ("Invalid email or security answers" ≠ "Invalid security answers") ∧
    (∀ newPwd, ¬ newPwd = "" →
      ((resetPasswordWithSecurityAnswers db hcmp hash email [a0, a1, a2]
          newPwd).fst = .ok 200 () ↔
        (answerMatches hcmp u 0 a0 = true ∧ answerMatches hcmp u 1 a1 = true ∧
         answerMatches hcmp u 2 a2 = true))) := by
  have hbridge := answersMatch_all_three hcmp u a0 a1 a2
  refine ⟨?_, ?_, ?_, by decide, ?_⟩
  · rw [show verifySecurityAnswers db hcmp email [a0, a1, a2] =
        (if ¬(answersMatch hcmp u.securityAnswers [a0, a1, a2]).all (fun m => m) = true
         then .err 400 "Invalid security answers" else .ok 200 ()) from by
      simp only [verifySecurityAnswers, hfind]
      rw [if_neg (by simp [hemail])]]
    by_cases hall : (answersMatch hcmp u.securityAnswers [a0, a1, a2]).all
        (fun m => m) = true
    · rw [if_neg (not_not_intro hall)]
      simp [hbridge.mp hall]
    · rw [if_pos hall]
      constructor
      · intro h
        exact absurd h (by simp)
      · intro h
        exact absurd (hbridge.mpr h) hall
  · intro hmis
    have hall : ¬ (answersMatch hcmp u.securityAnswers [a0, a1, a2]).all
        (fun m => m) = true := fun h => hmis (hbridge.mp h)
    simp only [verifySecurityAnswers, hfind]
    rw [if_neg (by simp [hemail]), if_pos hall]
  · intro e' he' hnone
    simp only [verifySecurityAnswers, hnone]
    rw [if_neg (by simp [he'])]
  · intro newPwd hnp
    rw [show (resetPasswordWithSecurityAnswers db hcmp hash email [a0, a1, a2]
          newPwd).fst =
        (if ¬(answersMatch hcmp u.securityAnswers [a0, a1, a2]).all (fun m => m) = true
         then .err 400 "Invalid security answers" else .ok 200 ()) from by
      simp only [resetPasswordWithSecurityAnswers, hfind]
      rw [if_neg (by simp [hemail, hnp])]
      by_cases hall : (answersMatch hcmp u.securityAnswers [a0, a1, a2]).all
          (fun m => m) = true
      · rw [if_neg (not_not_intro hall), if_neg (not_not_intro hall)]
      · rw [if_pos hall, if_pos hall]]
    by_cases hall : (answersMatch hcmp u.securityAnswers [a0, a1, a2]).all
        (fun m => m) = true
    · rw [if_neg (not_not_intro hall)]
      simp [hbridge.mp hall]
    · rw [if_pos hall]
      constructor
      · intro h
        exact absurd h (by simp)
      · intro h
        exact absurd (hbridge.mpr h) hall

/-- C8 counterexample: against `exDbUser`, an unknown email and a wrong
first answer produce two *different* error bodies — the failure output is
not uniform and reveals whether the email exists. -/
theorem C8_counterexample :
    verifySecurityAnswers exDbUser exCmp "ghost@x" ["ans1", "ans2", "ans3"] =
      .err 400 "Invalid email or security answers" ∧
    verifySecurityAnswers exDbUser exCmp "a@x" ["wrong", "ans2", "ans3"] =
      .err 400 "Invalid security answers" ∧
    (ApiResult.err 400 "Invalid email or security answers" : ApiResult Unit) ≠
      .err 400 "Invalid security answers" := by
  decide

/-- C8 witness: with answers differing from the stored ones only by case
and surrounding spaces, verification succeeds (all three positional
comparisons pass after lower-casing and trimming). -/
theorem C8_witness :
    findUserByEmail exDbUser "a@x" = some exUser ∧
    verifySecurityAnswers exDbUser exCmp "a@x" ["ANS1 ", " Ans2", "ans3"] =
      .ok 200 () :=
  ⟨by decide,
    (C8_security_answer_check exDbUser exCmp exHash "a@x" exUser
        "ANS1 " " Ans2" "ans3" (by decide) (by decide)).1.mpr
      ⟨by decide, by decide, by decide⟩⟩

/-! ### Claim C9 -/

theorem getBooks_books (db : DB) (userId : Option Nat) (q : BooksQuery) :
    (getBooks db userId q).books =
      jsSort (bookCmp q.sortBy (callerGenres db userId)) (pageOf db q) := rfl

theorem status_of_matches (q : BooksQuery) (b : Book)
    (h : matchesBookQuery q b = true) : b.status = .available := by
  simp only [matchesBookQuery, Bool.and_eq_true, decide_eq_true_eq] at h
  exact h.1.1.1.1

theorem mem_pageOf (db : DB) (q : BooksQuery) (b : Book)
    (hb : b ∈ pageOf db q) : matchesBookQuery q b = true := by
  unfold pageOf at hb
  exact List.of_mem_filter ((List.drop_subset _ _) ((List.take_subset _ _) hb))

/-- Transport sortedness out of the comparator order. -/
theorem pairwise_jsSort_of {α : Type} (cmp : α → α → Int) (R : α → α → Prop)
    (hR : ∀ a b, cmp a b ≤ 0 → R a b)
    (htot : ∀ a b, cmp a b ≤ 0 ∨ cmp b a ≤ 0)
    (htrans : ∀ a b c, cmp a b ≤ 0 → cmp b c ≤ 0 → cmp a c ≤ 0)
    (l : List α) : (jsSort cmp l).Pairwise R :=
  (pairwise_jsSort cmp htot htrans l).imp (fun h => hR _ _ h)

/-- C9 (confirmed): the public listing returns only `available` books, in
pages of at most the fixed size 15, answering an empty page (not an error)
when nothing matches; `newest`/`oldest` order the returned page by creation
time descending/ascending, `title_asc`/`title_desc` by title, and
`recommended` with a non-empty preferred-genre list puts the books matching
a preferred genre before all others, each block keeping the fetched page's
original relative order (stable tie-break). -/
theorem C9_getBooks_spec (db : DB) (userId : Option Nat) (q : BooksQuery) :
    (∀ b ∈ (getBooks db userId q).books, b.status = .available) ∧
    ((getBooks db userId q).books.length ≤ 15 ∧
      (getBooks db userId q).itemsPerPage = 15) ∧
    (db.books.filter (matchesBookQuery q) = [] →
      (getBooks db userId q).books = [] ∧ (getBooks db userId q).totalItems = 0) ∧
    (q.sortBy = "newest" →
      (getBooks db userId q).books.Pairwise (fun a b => b.createdAt ≤ a.createdAt)) ∧
    (q.sortBy = "oldest" →
      (getBooks db userId q).books.Pairwise (fun a b => a.createdAt ≤ b.createdAt)) ∧
    (q.sortBy = "title_asc" →
      (getBooks db userId q).books.Pairwise (fun a b => a.title ≤ b.title)) ∧
    (q.sortBy = "title_desc" →
      (getBooks db userId q).books.Pairwise (fun a b => b.title ≤ a.title)) ∧
    (q.sortBy = "recommended" → callerGenres db userId ≠ [] →
      (getBooks db userId q).books =
        (pageOf db q).filter (fun b => decide (b.genre ∈ callerGenres db userId)) ++
        (pageOf db q).filter (fun b => !decide (b.genre ∈ callerGenres db userId))) := by
  refine ⟨?_, ⟨?_, rfl⟩, ?_, ?_, ?_, ?_, ?_, ?_⟩
  · intro b hb
    rw [getBooks_books] at hb
    exact status_of_matches q b
      (mem_pageOf db q b ((mem_jsSort _ b (pageOf db q)).mp hb))
  · rw [getBooks_books, length_jsSort]
    unfold pageOf
    rw [List.length_take]
    exact min_le_left _ _
  · intro h
    constructor
    · rw [getBooks_books]
      unfold pageOf
      rw [h, List.drop_nil, List.take_nil]
      rfl
    · show (db.books.filter (matchesBookQuery q)).length = 0
      rw [h]
      rfl
  · rintro hs
    rw [getBooks_books, hs]
    have hcmp : ∀ a b : Book, bookCmp "newest" (callerGenres db userId) a b =
        (b.createdAt : Int) - (a.createdAt : Int) := by
      intro a b
      unfold bookCmp
      rw [if_neg (fun h => by simp at h), if_pos rfl]
    refine pairwise_jsSort_of _ _ ?_ ?_ ?_ _
    · intro a b h
      rw [hcmp] at h
      omega
    · intro a b
      rw [hcmp, hcmp]
      omega
    · intro a b c h1 h2
      rw [hcmp] at h1 h2 ⊢
      omega
  · rintro hs
    rw [getBooks_books, hs]
    have hcmp : ∀ a b : Book, bookCmp "oldest" (callerGenres db userId) a b =
        (a.createdAt : Int) - (b.createdAt : Int) := by
      intro a b
      unfold bookCmp
      rw [if_neg (fun h => by simp at h), if_neg (by simp), if_pos rfl]
    refine pairwise_jsSort_of _ _ ?_ ?_ ?_ _
    · intro a b h
      rw [hcmp] at h
      omega
    · intro a b
      rw [hcmp, hcmp]
      omega
    · intro a b c h1 h2
      rw [hcmp] at h1 h2 ⊢
      omega
  · rintro hs
    rw [getBooks_books, hs]
    have hcmp : ∀ a b : Book, bookCmp "title_asc" (callerGenres db userId) a b =
        localeCmp a.title b.title := by
      intro a b
      unfold bookCmp
      rw [if_neg (fun h => by simp at h), if_neg (by simp), if_neg (by simp),
        if_pos rfl]
    refine pairwise_jsSort_of _ _ ?_ ?_ ?_ _
    · intro a b h
      rw [hcmp] at h
      exact (localeCmp_nonpos _ _).mp h
    · intro a b
      rw [hcmp, hcmp, localeCmp_nonpos, localeCmp_nonpos]
      exact le_total a.title b.title
    · intro a b c h1 h2
      rw [hcmp, localeCmp_nonpos] at h1 h2 ⊢
      exact le_trans h1 h2
  · rintro hs
    rw [getBooks_books, hs]
    have hcmp : ∀ a b : Book, bookCmp "title_desc" (callerGenres db userId) a b =
        localeCmp b.title a.title := by
      intro a b
      unfold bookCmp
      rw [if_neg (fun h => by simp at h), if_neg (by simp), if_neg (by simp),
        if_neg (by simp), if_pos rfl]
    refine pairwise_jsSort_of _ _ ?_ ?_ ?_ _
    · intro a b h
      rw [hcmp] at h
      exact (localeCmp_nonpos _ _).mp h
    · intro a b
      rw [hcmp, hcmp, localeCmp_nonpos, localeCmp_nonpos]
      exact (le_total b.title a.title)
    · intro a b c h1 h2
      rw [hcmp, localeCmp_nonpos] at h1 h2 ⊢
      exact le_trans h2 h1
  · rintro hs hg
    rw [getBooks_books, hs]
    exact jsSort_partition (fun b => decide (b.genre ∈ callerGenres db userId))
      (bookCmp "recommended" (callerGenres db userId))
      (by
        intro a b
        unfold bookCmp
        rw [if_pos ⟨rfl, List.length_pos.mpr hg⟩]
        simp [genreScore]) (pageOf db q)

/-- C9 witness: in `exCatalogDb` (three available books, one pending;
caller 7 prefers `SF`) the `recommended` listing returns the two available
`SF` books first — in their fetched order — then the non-`SF` book; the
pending book never appears. -/
theorem C9_witness :
    callerGenres exCatalogDb (some 7) = ["SF"] ∧
    ((getBooks exCatalogDb (some 7) { exQuery with sortBy := "recommended" }).books.map
      (fun b => b.id)) = [2, 4, 1] ∧
    (getBooks exCatalogDb (some 7) { exQuery with sortBy := "recommended" }).books =
      (pageOf exCatalogDb { exQuery with sortBy := "recommended" }).filter
        (fun b => decide (b.genre ∈ callerGenres exCatalogDb (some 7))) ++
      (pageOf exCatalogDb { exQuery with sortBy := "recommended" }).filter
        (fun b => !decide (b.genre ∈ callerGenres exCatalogDb (some 7))) :=
  ⟨by decide, by decide,
    (C9_getBooks_spec exCatalogDb (some 7)
        { exQuery with sortBy := "recommended" }).2.2.2.2.2.2.2
      rfl (by decide)⟩

/-! ### Claim C10 -/

/-- C10 (confirmed): a successful `resetPasswordWithSecurityAnswers`
changes only the user's password hash — in particular `resetPasswordToken`
and `resetPasswordExpires` survive untouched, so a live OTP issued earlier
by `forgotPassword` still resets the password afterwards; by contrast the
OTP-based `resetPassword` clears both fields on success. -/
theorem C10_security_reset_frame (db : DB) (hcmp : String → String → Bool)
    (hash : String → String) (email : String) (u : User)
    (a0 a1 a2 newPwd : String)
    (hids : (db.users.map (fun x => x.id)).Nodup)
    (hemails : (db.users.map (fun x => x.email)).Nodup)
    (hfind : findUserByEmail db email = some u)
    (hok : (resetPasswordWithSecurityAnswers db hcmp hash email [a0, a1, a2]
        newPwd).fst = .ok 200 ()) :
    findUserByEmail
        (resetPasswordWithSecurityAnswers db hcmp hash email [a0, a1, a2]
          newPwd).snd email = some { u with password := hash newPwd } ∧
    (∀ otp exp pw2 now, u.resetPasswordToken = some otp →
      u.resetPasswordExpires = some exp → now < exp →
      (resetPassword
          (resetPasswordWithSecurityAnswers db hcmp hash email [a0, a1, a2]
            newPwd).snd hash email otp pw2 now).fst = .ok 200 ()) ∧
    (∀ (db2 : DB) (u2 : User) (e2 otp2 pw2 : String) (now2 : Nat),
      db2.users.find? (fun v =>
          v.email = e2 && v.resetPasswordToken = some otp2 &&
          match v.resetPasswordExpires with
          | some e => decide (now2 < e)
          | none => false) = some u2 →
      resetPassword db2 hash e2 otp2 pw2 now2 =
        (.ok 200 (), saveUser db2
          { u2 with
            password := hash pw2
            resetPasswordToken := none
            resetPasswordExpires := none })) := by
  have hmem : u ∈ db.users := List.mem_of_find?_eq_some hfind
  have huemail : u.email = email := userEmail_of_find db email u hfind
  have hidu : ∀ x ∈ db.users, x.id = u.id → x = u :=
    unique_of_nodup_key User.id db.users hids u hmem
  have hemail : ¬ email = "" := by
    intro h
    simp only [resetPasswordWithSecurityAnswers] at hok
    rw [if_pos (Or.inl h)] at hok
    simp at hok
  have hnp : ¬ newPwd = "" := by
    intro h
    simp only [resetPasswordWithSecurityAnswers] at hok
    rw [if_pos (Or.inr (Or.inl h))] at hok
    simp at hok
  have heq : resetPasswordWithSecurityAnswers db hcmp hash email [a0, a1, a2]
      newPwd = (.ok 200 (), saveUser db { u with password := hash newPwd }) := by
    simp only [resetPasswordWithSecurityAnswers, hfind] at hok ⊢
    rw [if_neg (by simp [hemail, hnp])] at hok ⊢
    by_cases hall : ¬ (answersMatch hcmp u.securityAnswers [a0, a1, a2]).all
        (fun m => m) = true
    · rw [if_pos hall] at hok
      simp at hok
    · rw [if_neg hall]
  refine ⟨?_, ?_, ?_⟩
  · rw [heq]
    exact find?_users_save_unique db (fun x => x.email = email) u
      { u with password := hash newPwd } hmem (by simp [huemail]) rfl hidu
      (fun x hx hxe =>
        unique_of_nodup_key User.email db.users hemails u hmem x hx
          (by rw [of_decide_eq_true hxe, huemail]))
  · intro otp exp pw2 now hotp hexp hnow
    rw [heq]
    have hfound : (saveUser db { u with password := hash newPwd }).users.find?
        (fun v => v.email = email && v.resetPasswordToken = some otp &&
          match v.resetPasswordExpires with
          | some e => decide (now < e)
          | none => false) = some { u with password := hash newPwd } := by
      refine find?_users_save_unique db _ u _ hmem ?_ rfl hidu ?_
      · show (decide (u.email = email) && decide (u.resetPasswordToken = some otp) &&
          match u.resetPasswordExpires with
          | some e => decide (now < e)
          | none => false) = true
        rw [hexp]
        simp [huemail, hotp, hnow]
      · intro x hx hq
        refine unique_of_nodup_key User.email db.users hemails u hmem x hx ?_
        simp only [Bool.and_eq_true, decide_eq_true_eq] at hq
        rw [hq.1.1, huemail]
    show (resetPassword (saveUser db { u with password := hash newPwd })
      hash email otp pw2 now).fst = .ok 200 ()
    simp only [resetPassword, hfound]
  · intro db2 u2 e2 otp2 pw2 now2 hfind2
    simp only [resetPassword, hfind2]

/-- C10 witness: `exUser` holds a live OTP `111111` (expiry 10); after a
successful security-answer reset at `now = 0` the OTP-based reset still
succeeds, while the OTP path itself is proved to clear both fields. -/
theorem C10_witness :
    (resetPasswordWithSecurityAnswers exDbUser exCmp exHash "a@x"
        ["ans1", "ans2", "ans3"] "npw").fst = .ok 200 () ∧
    findUserByEmail
        (resetPasswordWithSecurityAnswers exDbUser exCmp exHash "a@x"
          ["ans1", "ans2", "ans3"] "npw").snd "a@x" =
      some { exUser with password := exHash "npw" } ∧
    (resetPassword
        (resetPasswordWithSecurityAnswers exDbUser exCmp exHash "a@x"
          ["ans1", "ans2", "ans3"] "npw").snd exHash "a@x" "111111" "npw2"
        0).fst = .ok 200 () :=
  ⟨by decide,
    (C10_security_reset_frame exDbUser exCmp exHash "a@x" exUser
      "ans1" "ans2" "ans3" "npw" (by decide) (by decide) (by decide) (by decide)).1,
    (C10_security_reset_frame exDbUser exCmp exHash "a@x" exUser
      "ans1" "ans2" "ans3" "npw" (by decide) (by decide) (by decide) (by decide)).2.1
      "111111" 10 "npw2" 0 (by decide) (by decide) (by decide)⟩

end BookExchange
